import Mathlib

/-!
Verification development for the YT-downloader repository (src/app.py and
src/func.py), a YouTube media-download utility.  The repository's own logic is:

* `clean_url` (identical in app.py lines 14-33 and func.py lines 15-34):
  URL normalization on top of Python's `urllib.parse.urlparse` / `parse_qs`.
* `download_video_stream` (app.py lines 35-121): downloads the video stream to
  a temporary file via an in-memory buffer, verifies sizes, reads the file
  back, and returns a `(bytes, file_name, mime)` triple or `(None, None, None)`.
* `download_audio_stream` (app.py lines 123-191): downloads audio, converts to
  MP3, cleans up temporaries.
* `download_caption_text` (app.py lines 193-215): serializes the English
  caption track, never touching the filesystem.
* three progress callbacks: `on_progress` inside `download_video_stream`
  (app.py lines 62-69), `on_progress` inside `download_audio_stream`
  (app.py lines 148-161), and the module-level `on_progress_callback`
  (func.py lines 36-50).

External collaborators (pytubefix streaming, the filesystem, moviepy
transcoding) are modelled adversarially as explicit inputs: each branch the
Python code can take on their results is a field of a "world" record, and the
modelled function maps a world to the observable outcome (returned triple,
messages shown, temporary files left behind).  Python floats in the progress
computations are modelled with `ℚ` (the divisions at issue — `total/total` at
completion, the `min(·, 1.0)` cap, and monotonicity in the numerator — are
exact in binary floating point, so `ℚ` is faithful for the properties stated
here).  A Python function that can raise is modelled with `Option`/`Except`
(`none`/`.error` = an exception escapes).
-/

/-! ## Progress callbacks

`on_progress` nested in `download_video_stream`, app.py lines 62-69:

    current_bytes_downloaded = total_size - bytes_remaining
    progress = current_bytes_downloaded / total_size if total_size > 0 else 0
    progress_bar.progress(min(progress, 1.0))

The value passed to `progress_bar.progress` is the reported progress. -/
def video_on_progress (totalSize bytesRemaining : Nat) : ℚ :=
  let currentBytesDownloaded : ℚ := (totalSize : ℚ) - (bytesRemaining : ℚ)
  let progress : ℚ := if 0 < totalSize then currentBytesDownloaded / (totalSize : ℚ) else 0
  min progress 1

/-- `on_progress` nested in `download_audio_stream`, app.py lines 148-161:

    bytes_streamed = total_size - bytes_remaining
    progress = (bytes_streamed / total_size) if total_size > 0 else 0
    progress_bar.progress(min(progress, 1.0))
-/
def audio_on_progress (totalSize bytesRemaining : Nat) : ℚ :=
  let bytesStreamed : ℚ := (totalSize : ℚ) - (bytesRemaining : ℚ)
  let progress : ℚ := if 0 < totalSize then bytesStreamed / (totalSize : ℚ) else 0
  min progress 1

/-- Module-level `on_progress_callback`, func.py lines 36-50:

    total_size = stream.filesize
    bytes_downloaded = total_size - bytes_remaining
    percentage_of_completion = bytes_downloaded / total_size * 100
    progress_var.set(percentage_of_completion)

The division is not guarded: with `total_size = 0` Python raises
`ZeroDivisionError`, modelled as `none`.  Otherwise the percentage (scale
0..100, the tkinter progress bar maximum is 100) set on `progress_var` is
returned. -/
def on_progress_callback (totalSize bytesRemaining : Nat) : Option ℚ :=
  if totalSize = 0 then none
  else some (((totalSize : ℚ) - (bytesRemaining : ℚ)) / (totalSize : ℚ) * 100)

/-! ## Video download (app.py lines 35-121)

World record: the observations `download_video_stream` makes of its
collaborators, in the order the code makes them. -/
structure VideoWorld where
  /-- `yt.streams.get_highest_resolution()` returned a stream (line 49-51). -/
  streamAvail : Bool
  /-- the `video_stream.filesize` property access (line 58) raises.  This
  happens after the temporary file was created (line 55) and before the
  `try` block starts (line 73), so such an exception propagates to the
  caller with the temporary file left on disk (pytubefix's `filesize`
  performs network requests and can raise). -/
  filesizeRaises : Bool
  /-- the value of `video_stream.filesize` (line 58) when it does not
  raise. -/
  totalSize : Nat
  /-- an exception is raised inside the `try` block of lines 73-109
  (`stream_to_buffer`, the file write, `os.path.getsize`, or `read`). -/
  ioError : Bool
  /-- `os.path.exists(file_path)` after the write (line 86). -/
  fileExists : Bool
  /-- `os.path.getsize(file_path)` (line 90). -/
  diskSize : Nat
  /-- the bytes returned by `fin.read()` (line 95). -/
  readBack : List Nat
  /-- `yt.title`. -/
  title : List Char

/-- Observable outcome of `download_video_stream`. -/
structure VideoResult where
  /-- first component of the returned triple. -/
  fileBytes : Option (List Nat)
  /-- second component of the returned triple. -/
  fileName : Option (List Char)
  /-- third component of the returned triple. -/
  mimeType : Option (List Char)
  /-- the `st.warning` filesize-mismatch message of lines 98-102 was shown. -/
  sizeWarning : Bool
  /-- the `st.error` CRITICAL READ ERROR message of lines 103-107 was shown. -/
  readErrorShown : Bool
  /-- an `st.error` from the exists check (line 87) or the except branch
  (line 111) was shown. -/
  errorShown : Bool
  /-- the temporary file still exists after the function exits.  The
  `finally` block (lines 113-116) removes it on every exit of the `try`,
  including the `return` statements inside it; an exception raised before
  the `try` (the `filesize` access of line 58) is not covered by it. -/
  tempFileRemains : Bool
  /-- the function exits by an uncaught exception instead of a `return`.
  On such an exit no triple is returned at all; the three `Option` fields
  are `none` placeholders and this flag distinguishes that exit from a
  returned `(None, None, None)`. -/
  raised : Bool
  deriving DecidableEq

/-- `download_video_stream` (app.py lines 35-121).  Control flow:
no stream → `(None, None, None)` (line 51); any exception in the `try` →
except branch returns `(None, None, None)` (lines 110-112); missing temp file
→ `(None, None, None)` (lines 86-88); filesize mismatch between the reported
`total_size` and the on-disk size → warning only (lines 98-102); mismatch
between the bytes read back and the on-disk size → error and
`(None, None, None)` (lines 103-108); otherwise `if mp4_bytes:` (line 118,
Python truthiness: empty bytes are falsy) decides between the populated
triple and the final `(None, None, None)` of line 121.  The `finally` block
removes the temporary file on every exit of the `try`; an exception from
the `filesize` access of line 58 occurs after the temporary file exists
(line 55) and before the `try`, so it propagates with the file left on
disk. -/
def download_video_stream (w : VideoWorld) : VideoResult :=
  if w.streamAvail = false then
    ⟨none, none, none, false, false, false, false, false⟩
  else if w.filesizeRaises = true then
    ⟨none, none, none, false, false, false, true, true⟩
  else if w.ioError = true then
    ⟨none, none, none, false, false, true, false, false⟩
  else if w.fileExists = false then
    ⟨none, none, none, false, false, true, false, false⟩
  else
    let warn := decide (0 < w.totalSize ∧ w.diskSize ≠ w.totalSize)
    if w.readBack.length ≠ w.diskSize then
      ⟨none, none, none, warn, true, false, false, false⟩
    else if w.readBack = [] then
      ⟨none, none, none, warn, false, false, false, false⟩
    else
      ⟨some w.readBack, some (w.title ++ ".mp4".toList), some "video/mp4".toList,
        warn, false, false, false, false⟩

/-! ## Audio download (app.py lines 123-191) -/
structure AudioWorld where
  /-- `yt.streams.filter(only_audio=True).first()` returned a stream
  (lines 137-139). -/
  streamAvail : Bool
  /-- the `audio_stream.filesize` property access (line 146) raises.  This
  happens after the temporary audio file was created (lines 142-143) and
  outside any `try`, so such an exception propagates to the caller with
  the temporary file left on disk. -/
  filesizeRaises : Bool
  /-- `audio_stream.download(filename=audio_path)` (line 164) raises.  This
  call is **outside** the `try` of lines 169-191, so the exception
  propagates to the caller. -/
  downloadRaises : Bool
  /-- an exception is raised inside the `try` of lines 169-191
  (`AudioFileClip`, `write_audiofile`, or reading the MP3 back). -/
  transcodeRaises : Bool
  /-- the bytes read from the converted MP3 file (line 176). -/
  mp3Content : List Nat
  /-- `yt.title`. -/
  title : List Char

/-- Observable outcome of `download_audio_stream`. -/
structure AudioResult where
  /-- `.error ()` models an exception escaping to the caller; `.ok` carries
  the returned triple. -/
  outcome : Except Unit (Option (List Nat) × Option (List Char) × Option (List Char))
  /-- the temporary downloaded audio file (created at lines 142-143) still
  exists after the call. -/
  audioTempRemains : Bool
  /-- the MP3 output file still exists after the call. -/
  mp3TempRemains : Bool
  /-- the `st.error` MP3-conversion message of line 184 was shown. -/
  conversionErrorShown : Bool

/-- `download_audio_stream` (app.py lines 123-191).  No stream →
`(None, None, None)` before any file is created (line 139).  A failure of
the `filesize` access (line 146) or of the download itself (line 164)
propagates as an exception with the temporary audio file already created
and not cleaned up — there is no enclosing `try`/`finally` around those
statements.  Any exception during conversion or read-back is caught at
lines 183-191, which remove both `audio_path` and `mp3_path` (when present)
and return `(None, None, None)`.  On success the code removes both files
(lines 178-179) and returns the populated triple. -/
def download_audio_stream (w : AudioWorld) : AudioResult :=
  if w.streamAvail = false then
    ⟨.ok (none, none, none), false, false, false⟩
  else if w.filesizeRaises = true then
    ⟨.error (), true, false, false⟩
  else if w.downloadRaises = true then
    ⟨.error (), true, false, false⟩
  else if w.transcodeRaises = true then
    ⟨.ok (none, none, none), false, false, true⟩
  else
    ⟨.ok (some w.mp3Content, some (w.title ++ ".mp3".toList), some "audio/mpeg".toList),
      false, false, false⟩

/-! ## Caption download (app.py lines 193-215, func.py lines 97-109) -/

/-- `yt.captions.get_by_language_code(code)`: the caption track for the given
language code, or `None`.  `captions` is the resource's caption set as a list
of `(language code, SRT text)` pairs. -/
def get_by_language_code (captions : List (List Char × List Char)) (code : List Char) :
    Option (List Char) :=
  (captions.find? (fun p => p.1 == code)).map (·.2)

structure CaptionWorld where
  /-- `yt.captions` as (language code, SRT text) pairs. -/
  captions : List (List Char × List Char)
  /-- `yt.title`. -/
  title : List Char

/-- UTF-8 encoding of one scalar value (Python `str.encode("utf-8")`,
app.py line 212). -/
def utf8EncodeChar (c : Char) : List Nat :=
  let n := c.toNat
  if n < 128 then [n]
  else if n < 2048 then [192 + n / 64, 128 + n % 64]
  else if n < 65536 then [224 + n / 4096, 128 + (n / 64) % 64, 128 + n % 64]
  else [240 + n / 262144, 128 + (n / 4096) % 64, 128 + (n / 64) % 64, 128 + n % 64]

def utf8Encode (s : List Char) : List Nat :=
  (s.map utf8EncodeChar).flatten

/-- Observable outcome of `download_caption_text`. -/
structure CaptionResult where
  fileBytes : Option (List Nat)
  fileName : Option (List Char)
  mimeType : Option (List Char)
  /-- whether the function created any file on disk.  The function body
  (app.py lines 205-215) only uses `io.StringIO` in memory; it performs no
  filesystem operation on any path, so this is `false` on every branch. -/
  tempFilesCreated : Bool
  deriving DecidableEq

/-- `download_caption_text` (app.py lines 193-215): English captions looked up
with `get_by_language_code('en')`; `None` → `(None, None, None)`; otherwise
the SRT text is encoded as UTF-8 and returned with name and MIME type. -/
def download_caption_text (w : CaptionWorld) : CaptionResult :=
  match get_by_language_code w.captions "en".toList with
  | none => ⟨none, none, none, false⟩
  | some text =>
      ⟨some (utf8Encode text), some (w.title ++ ".txt".toList), some "text/plain".toList, false⟩

/-- Outcome of the Streamlit dispatch for the `text` format
(app.py lines 251-253 and 261-272). -/
structure AppTextOutcome where
  /-- a download button was offered (line 261-268). -/
  delivered : Bool
  /-- the `st.warning("No English captions available for this video.")`
  notice of line 272 was shown. -/
  noCaptionsWarning : Bool
  deriving DecidableEq

/-- The app-level text branch: `download_caption_text` is called and the
result dispatched by `if file_bytes is not None and file_name is not None`
(line 261); in the else branch the `text` format shows the no-captions
warning (lines 271-272). -/
def app_text_request (w : CaptionWorld) : AppTextOutcome :=
  let r := download_caption_text w
  if r.fileBytes ≠ none ∧ r.fileName ≠ none then ⟨true, false⟩ else ⟨false, true⟩

/-- Outcome of the `text` branch of func.py's `download_video`
(lines 97-109). -/
structure FuncTextOutcome where
  /-- the `messagebox.showwarning` of line 102 was shown. -/
  warned : Bool
  /-- the caption text file was written (lines 105-108). -/
  wroteFile : Bool
  deriving DecidableEq

/-- func.py `download_video`, `file_format == 'text'` branch (lines 97-109):
`caption is None` → warning shown, `return` before any file is written;
otherwise the text file is written. -/
def func_download_video_text (captions : List (List Char × List Char)) : FuncTextOutcome :=
  match get_by_language_code captions "en".toList with
  | none => ⟨true, false⟩
  | some _ => ⟨false, true⟩

/-- The all-or-nothing shape of a returned `(bytes, name, mime)` triple. -/
def allOrNone (b : Option (List Nat)) (n m : Option (List Char)) : Prop :=
  (b ≠ none ∧ n ≠ none ∧ m ≠ none) ∨ (b = none ∧ n = none ∧ m = none)

/-- `allOrNone` lifted over an outcome that may instead be a raised
exception (which returns no triple at all). -/
def outcomeAllOrNone :
    Except Unit (Option (List Nat) × Option (List Char) × Option (List Char)) → Prop
  | .error _ => True
  | .ok t => allOrNone t.1 t.2.1 t.2.2

/-! ## URL normalization: `clean_url` (app.py lines 14-33 = func.py lines 15-34)

`clean_url` delegates URL structure to Python's `urllib.parse.urlparse` and
`urllib.parse.parse_qs`, so those stdlib functions are modelled here (CPython
semantics, restricted to the components `clean_url` reads: `netloc`, `path`,
`query`).  Strings are modelled as `List Char`.  `urlparse` can raise
`ValueError` ("Invalid IPv6 URL") on an authority with an unmatched bracket;
a raise is modelled as `none`.  (CPython 3.11+ additionally validates a
*matched*-bracket host as IPv6/IPvFuture; no theorem below depends on inputs
with matched brackets, so that version-dependent check is not modelled.) -/

/-- Python substring test `pat in s`. -/
def containsSub (s pat : List Char) : Bool :=
  if pat.isPrefixOf s then true
  else
    match s with
    | [] => false
    | _ :: t => containsSub t pat

/-- Python `str.split(sep)` for a one-character separator. -/
def splitOnChar (sep : Char) : List Char → List (List Char)
  | [] => [[]]
  | c :: rest =>
    if c == sep then [] :: splitOnChar sep rest
    else
      match splitOnChar sep rest with
      | r :: rs => (c :: r) :: rs
      | [] => [[c]]

/-- A WHATWG C0 control or space, stripped from the left of the URL by
`urlsplit`. -/
def isStrippable (c : Char) : Bool := decide (c.toNat ≤ 32)

/-- One of `_UNSAFE_URL_BYTES_TO_REMOVE` (tab, CR, LF), removed everywhere
by `urlsplit`. -/
def isUnsafeUrlChar (c : Char) : Bool := c == '\t' || c == '\r' || c == '\n'

def keepUrlChar (c : Char) : Bool := !isUnsafeUrlChar c

/-- `urlsplit`'s input sanitation: left-strip C0 controls and space, then
remove every tab, CR and LF. -/
def pySanitize (l : List Char) : List Char :=
  (l.dropWhile isStrippable).filter keepUrlChar

/-- `scheme_chars`: ASCII letters, digits, `+`, `-`, `.`. -/
def schemeChar (c : Char) : Bool :=
  c.isAlpha || c.isDigit || c == '+' || c == '-' || c == '.'

/-- Scan for the first `:`; all characters before it must be scheme
characters, else there is no scheme. -/
def schemeScan : List Char → List Char → Option (List Char × List Char)
  | acc, c :: rest =>
    if c == ':' then some (acc.reverse, rest)
    else if schemeChar c then schemeScan (c :: acc) rest
    else none
  | _, [] => none

/-- `urlsplit`'s scheme handling: `i = url.find(':')`; when `i > 0`, the
first character is an ASCII letter and the characters before the colon are
scheme characters, the scheme is split off and lowercased; otherwise the URL
is left whole.  Returns `(scheme, remainder)`. -/
def pySplitScheme : List Char → List Char × List Char
  | [] => ([], [])
  | c :: rest =>
    if c.isAlpha then
      match schemeScan [c] rest with
      | some (s, rem) => (s.map Char.toLower, rem)
      | none => ([], c :: rest)
    else ([], c :: rest)

/-- `_splitnetloc` delimiter set: the netloc extends to the first `/`, `?`
or `#`. -/
def notNetlocDelim (c : Char) : Bool := c != '/' && c != '?' && c != '#'

structure UrlParts where
  netloc : List Char
  path : List Char
  query : List Char
  deriving DecidableEq

/-- `uses_params` from `urllib.parse`: schemes whose path may carry
`;parameters`. -/
def usesParamsSchemes : List (List Char) :=
  [[], "ftp".toList, "hdl".toList, "prospero".toList, "http".toList, "imap".toList,
    "https".toList, "shttp".toList, "rtsp".toList, "rtspu".toList, "sip".toList,
    "sips".toList, "mms".toList, "sftp".toList, "tel".toList]

/-- `_splitparams`: split `;parameters` off the last path segment (only
called when a `;` is present). -/
def splitParamsPath (path : List Char) : List Char :=
  if '/' ∈ path then
    let revd := path.reverse
    let lastSeg := (revd.takeWhile (· != '/')).reverse
    let before := (revd.dropWhile (· != '/')).reverse
    if ';' ∈ lastSeg then before ++ lastSeg.takeWhile (· != ';') else path
  else path.takeWhile (· != ';')

/-- The tail of `urlparse` after scheme and netloc are known: reject an
unmatched bracket in the netloc, split the fragment at the first `#`, the
query at the first `?` of the pre-fragment part, and `;parameters` off the
path for a scheme in `uses_params`. -/
def pyUrlparseRest (scheme netloc u2 : List Char) : Option UrlParts :=
  if ('[' ∈ netloc ∧ ']' ∉ netloc) ∨ (']' ∈ netloc ∧ '[' ∉ netloc) then none
  else
    let preFrag := u2.takeWhile (· != '#')
    let path0 := preFrag.takeWhile (· != '?')
    let query := (preFrag.dropWhile (· != '?')).drop 1
    let path := if scheme ∈ usesParamsSchemes ∧ ';' ∈ path0 then splitParamsPath path0 else path0
    some ⟨netloc, path, query⟩

/-- Netloc extraction: when the (scheme-stripped) URL starts with `//`, the
netloc runs to the first `/`, `?` or `#`. -/
def pyUrlparseNoScheme (scheme u1 : List Char) : Option UrlParts :=
  if u1.take 2 = ['/', '/'] then
    pyUrlparseRest scheme ((u1.drop 2).takeWhile notNetlocDelim)
      ((u1.drop 2).dropWhile notNetlocDelim)
  else pyUrlparseRest scheme [] u1

/-- `urllib.parse.urlparse`, restricted to `(netloc, path, query)`;
`none` models the `ValueError` raised on an invalid bracketed authority. -/
def pyUrlparse (url : List Char) : Option UrlParts :=
  let u0 := pySanitize url
  let su := pySplitScheme u0
  pyUrlparseNoScheme su.1 su.2

/-- Hexadecimal digit value (both cases), as accepted by `_hextobyte`. -/
def hexDigitVal (c : Char) : Option Nat :=
  if '0' ≤ c ∧ c ≤ '9' then some (c.toNat - 48)
  else if 'A' ≤ c ∧ c ≤ 'F' then some (c.toNat - 65 + 10)
  else if 'a' ≤ c ∧ c ≤ 'f' then some (c.toNat - 97 + 10)
  else none

/-- `unquote_to_bytes` on an ASCII run: each `%` followed by two hex digits
becomes that byte, any other `%` stays literal, plain characters contribute
their code point. -/
def pctDecodeBytes : List Char → List Nat
  | [] => []
  | '%' :: a :: b :: rest =>
    match hexDigitVal a, hexDigitVal b with
    | some x, some y => (16 * x + y) :: pctDecodeBytes rest
    | _, _ => 37 :: pctDecodeBytes (a :: b :: rest)
  | '%' :: rest => 37 :: pctDecodeBytes rest
  | c :: rest => c.toNat :: pctDecodeBytes rest
  termination_by l => l.length
  decreasing_by all_goals (simp only [List.length_cons]; omega)

/-- A UTF-8 continuation byte. -/
def contByte (b : Nat) : Bool := 128 ≤ b && b ≤ 191

/-- Allowed first continuation byte after a 3-byte lead (excludes overlong
forms and surrogates, as CPython's strict table does). -/
def cont2First (b c1 : Nat) : Bool :=
  if b == 224 then 160 ≤ c1 && c1 ≤ 191
  else if b == 237 then 128 ≤ c1 && c1 ≤ 159
  else contByte c1

/-- Allowed first continuation byte after a 4-byte lead. -/
def cont3First (b c1 : Nat) : Bool :=
  if b == 240 then 144 ≤ c1 && c1 ≤ 191
  else if b == 244 then 128 ≤ c1 && c1 ≤ 143
  else contByte c1

/-- U+FFFD REPLACEMENT CHARACTER. -/
def uRepl : Char := Char.ofNat 65533

/-- `bytes.decode('utf-8', errors='replace')`: one U+FFFD per maximal subpart
of an ill-formed sequence, as CPython emits. -/
def utf8DecodeReplace : List Nat → List Char
  | [] => []
  | b :: rest =>
    if b < 128 then Char.ofNat b :: utf8DecodeReplace rest
    else if 194 ≤ b && b ≤ 223 then
      match h1 : rest with
      | [] => [uRepl]
      | c1 :: r1 =>
        if contByte c1 then
          Char.ofNat ((b - 192) * 64 + (c1 - 128)) :: utf8DecodeReplace r1
        else uRepl :: utf8DecodeReplace rest
    else if 224 ≤ b && b ≤ 239 then
      match h1 : rest with
      | [] => [uRepl]
      | c1 :: r1 =>
        if cont2First b c1 then
          match h2 : r1 with
          | [] => [uRepl]
          | c2 :: r2 =>
            if contByte c2 then
              Char.ofNat ((b - 224) * 4096 + (c1 - 128) * 64 + (c2 - 128)) ::
                utf8DecodeReplace r2
            else uRepl :: utf8DecodeReplace r1
        else uRepl :: utf8DecodeReplace rest
    else if 240 ≤ b && b ≤ 244 then
      match h1 : rest with
      | [] => [uRepl]
      | c1 :: r1 =>
        if cont3First b c1 then
          match h2 : r1 with
          | [] => [uRepl]
          | c2 :: r2 =>
            if contByte c2 then
              match h3 : r2 with
              | [] => [uRepl]
              | c3 :: r3 =>
                if contByte c3 then
                  Char.ofNat ((b - 240) * 262144 + (c1 - 128) * 4096 + (c2 - 128) * 64 +
                    (c3 - 128)) :: utf8DecodeReplace r3
                else uRepl :: utf8DecodeReplace r2
            else uRepl :: utf8DecodeReplace r1
        else uRepl :: utf8DecodeReplace rest
    else uRepl :: utf8DecodeReplace rest
  termination_by l => l.length
  decreasing_by all_goals (subst_vars; simp only [List.length_cons]; omega)

/-- Python's `str.replace('+', ' ')`, the first step of `unquote_plus`. -/
def plusToSpace (s : List Char) : List Char :=
  s.map (fun c => if c == '+' then ' ' else c)

def isAsciiChr (c : Char) : Bool := decide (c.toNat ≤ 127)

/-- The run loop of `unquote`: maximal ASCII runs are percent-decoded to
bytes and UTF-8-decoded with replacement; non-ASCII characters pass
through unchanged. -/
def unquoteRuns : List Char → List Char
  | [] => []
  | c :: rest =>
    if isAsciiChr c then
      utf8DecodeReplace (pctDecodeBytes (c :: rest.takeWhile isAsciiChr)) ++
        unquoteRuns (rest.dropWhile isAsciiChr)
    else c :: unquoteRuns rest
  termination_by l => l.length
  decreasing_by
    · simp only [List.length_cons]
      exact Nat.lt_succ_of_le (List.IsSuffix.length_le (List.dropWhile_suffix _))
    · simp

/-- `urllib.parse.unquote` with the default `utf-8`/`replace` arguments;
a string without `%` is returned unchanged (CPython's fast path). -/
def pyUnquote (s : List Char) : List Char :=
  if '%' ∈ s then unquoteRuns s else s

def pyUnquotePlus (s : List Char) : List Char := pyUnquote (plusToSpace s)

/-- One `name=value` item of `parse_qsl` with the default arguments
(`keep_blank_values=False`, `strict_parsing=False`): empty items and items
without `=` or with an empty value are dropped; name and value get
`+`→space then `unquote`. -/
def pairParse (p : List Char) : Option (List Char × List Char) :=
  if p = [] then none
  else if '=' ∈ p then
    let value := (p.dropWhile (· != '=')).drop 1
    if value = [] then none
    else some (pyUnquotePlus (p.takeWhile (· != '=')), pyUnquotePlus value)
  else none

/-- `parse_qsl(qs)` with the default separator `&`. -/
def qsPairs (q : List Char) : List (List Char × List Char) :=
  (splitOnChar '&' q).filterMap pairParse

/-- `'v' in parse_qs(query)` / `parse_qs(query)['v'][0]`: the key exists in
the `parse_qs` dict iff some pair is named `v`, and index `[0]` is the first
such value. -/
def firstVParam (q : List Char) : Option (List Char) :=
  ((qsPairs q).find? (fun pr => pr.1 == ['v'])).map (·.2)

def ytubeStr : List Char := "youtube".toList
def ytbeStr : List Char := "youtu.be".toList
def canonBase : List Char := "https://www.youtube.com/watch?v=".toList
def shortBase : List Char := "https://youtu.be/".toList

/-- `clean_url` (app.py lines 14-33, identical in func.py lines 15-34):

    if 'youtube' in url or 'youtu.be' in url:
        parsed_url = urlparse(url)
        query_params = parse_qs(parsed_url.query)
        if parsed_url.netloc == 'youtu.be':
            video_id = parsed_url.path.lstrip('/')
            return f"https://www.youtube.com/watch?v={video_id}"
        if 'v' in query_params:
            return f"https://www.youtube.com/watch?v={query_params['v'][0]}"
    return url

`none` models the `ValueError` that `urlparse` can raise escaping from
`clean_url` (there is no `try` around it). -/
def clean_url (url : List Char) : Option (List Char) :=
  if containsSub url ytubeStr || containsSub url ytbeStr then
    match pyUrlparse url with
    | none => none
    | some p =>
      if p.netloc = ytbeStr then some (canonBase ++ p.path.dropWhile (· == '/'))
      else
        match firstVParam p.query with
        | some v => some (canonBase ++ v)
        | none => some url
  else some url

/-- Characters of a well-formed YouTube video identifier (ASCII alphanumeric,
`-`, `_`), the vocabulary in which the amended normalization claims are
stated: identifiers made of these characters contain none of the separator
characters (`&`, `=`, `#`, `?`, `/`, `;`, `%`, `+`) that `urlparse` and
`parse_qs` treat specially. -/
def safeIdChar (c : Char) : Bool :=
  decide ((48 ≤ c.toNat ∧ c.toNat ≤ 57) ∨ (65 ≤ c.toNat ∧ c.toNat ≤ 90) ∨
    (97 ≤ c.toNat ∧ c.toNat ≤ 122) ∨ c.toNat = 45 ∨ c.toNat = 95)

/-! ## Theorems -/

/-- C2: for a transfer with known positive declared total, the progress
values reported at chunk boundaries are monotonically non-decreasing (a later
callback sees `bytesRemaining` at most that of an earlier one), never exceed
full progress, and equal exactly full progress on the final callback
(`bytesRemaining = 0`).  Stated for all three callbacks: the two Streamlit
callbacks report a fraction capped at `1.0` that is exactly `1` at
completion, and func.py's `on_progress_callback` reports a percentage on the
0..100 scale (its progress bar maximum, so `100` = `1.0`) that is exactly
`100` at completion. -/
theorem progress_monotone_and_completes (total r r' : Nat)
    (htot : 0 < total) (hrr : r' ≤ r) :
    (video_on_progress total r ≤ video_on_progress total r' ∧
      video_on_progress total r ≤ 1 ∧ video_on_progress total 0 = 1) ∧
    (audio_on_progress total r ≤ audio_on_progress total r' ∧
      audio_on_progress total r ≤ 1 ∧ audio_on_progress total 0 = 1) ∧
    (∀ p p', on_progress_callback total r = some p →
      on_progress_callback total r' = some p' → p ≤ p' ∧ p ≤ 100) ∧
    on_progress_callback total 0 = some 100 := by
  have htq : (0 : ℚ) < (total : ℚ) := by exact_mod_cast htot
  have hrq : (r' : ℚ) ≤ (r : ℚ) := by exact_mod_cast hrr
  have hnum : (total : ℚ) - (r : ℚ) ≤ (total : ℚ) - (r' : ℚ) := by linarith
  have hdiv : ((total : ℚ) - (r : ℚ)) / total ≤ ((total : ℚ) - (r' : ℚ)) / total := by
    gcongr
  have hone : ((total : ℚ) - (r : ℚ)) / total ≤ 1 := by
    rw [div_le_one htq]
    have : (0 : ℚ) ≤ (r : ℚ) := Nat.cast_nonneg r
    linarith
  have hfull : ((total : ℚ) - (0 : Nat)) / total = 1 := by
    rw [Nat.cast_zero, sub_zero, div_self (ne_of_gt htq)]
  refine ⟨⟨?_, ?_, ?_⟩, ⟨?_, ?_, ?_⟩, ?_, ?_⟩
  · simp only [video_on_progress, if_pos htot]
    exact min_le_min hdiv le_rfl
  · exact min_le_right _ _
  · simp only [video_on_progress, if_pos htot, hfull, min_self]
  · simp only [audio_on_progress, if_pos htot]
    exact min_le_min hdiv le_rfl
  · exact min_le_right _ _
  · simp only [audio_on_progress, if_pos htot, hfull, min_self]
  · intro p p' hp hp'
    simp only [on_progress_callback, if_neg (Nat.pos_iff_ne_zero.mp htot),
      Option.some.injEq] at hp hp'
    subst hp; subst hp'
    constructor
    · exact mul_le_mul_of_nonneg_right hdiv (by norm_num)
    · have := mul_le_mul_of_nonneg_right hone (by norm_num : (0 : ℚ) ≤ 100)
      simpa using this
  · simp only [on_progress_callback, if_neg (Nat.pos_iff_ne_zero.mp htot), hfull, one_mul]

/-- Witness for `progress_monotone_and_completes` at `total = 4`, `r = 2`,
`r' = 1`. -/
theorem progress_monotone_and_completes_witness :
    video_on_progress 4 2 ≤ video_on_progress 4 1 ∧ video_on_progress 4 0 = 1 ∧
    audio_on_progress 4 0 = 1 ∧ on_progress_callback 4 0 = some 100 := by
  have h := progress_monotone_and_completes 4 2 1 (by decide) (by decide)
  exact ⟨h.1.1, h.1.2.2, h.2.1.2.2, h.2.2.2⟩

/-- C4 (corrected): when the stream's total size is zero, the two Streamlit
callbacks guard the division and report the indeterminate value `0`, but
func.py's `on_progress_callback` performs the division unguarded and raises
`ZeroDivisionError` (modelled `none`) instead of reporting a value. -/
theorem zero_total_guarded_only_in_app (remaining : Nat) :
    video_on_progress 0 remaining = 0 ∧ audio_on_progress 0 remaining = 0 ∧
    on_progress_callback 0 remaining = none := by
  refine ⟨?_, ?_, rfl⟩ <;>
    simp [video_on_progress, audio_on_progress]

/-- C4 counterexample: at `total_size = 0`, `bytes_remaining = 5`, func.py's
callback does not report the guarded value `0` (or any value): it raises,
while the app.py video callback at the same input reports `0`.  This refutes
the claim that *both* UI variants' callbacks avoid the division. -/
theorem zero_total_counterexample :
    on_progress_callback 0 5 = none ∧ on_progress_callback 0 5 ≠ some 0 ∧
    video_on_progress 0 5 = 0 := by
  refine ⟨rfl, by decide, ?_⟩
  simp [video_on_progress]

/-- C1 (corrected): within `download_video_stream` — on runs where the
stream exists, the filesize query succeeds and no exception interrupts the
transfer, so the size checks are reached — whenever the bytes read
back differ in number from the verified on-disk size, the function shows the
CRITICAL READ ERROR and returns the all-`None` triple; when the read-back
matches the on-disk size, a mismatch between the declared `total_size` and
the on-disk size alone produces only the warning — and the artifact is
delivered provided the read-back content is nonempty (the `if mp4_bytes:`
truthiness check at line 118 turns a zero-byte read-back into the all-`None`
triple even though only a warning was shown). -/
theorem video_corruption_fatal_size_mismatch_warns (w : VideoWorld)
    (hs : w.streamAvail = true) (hfs : w.filesizeRaises = false)
    (hio : w.ioError = false) (hex : w.fileExists = true) :
    (w.readBack.length ≠ w.diskSize →
      (download_video_stream w).fileBytes = none ∧
      (download_video_stream w).fileName = none ∧
      (download_video_stream w).mimeType = none ∧
      (download_video_stream w).readErrorShown = true) ∧
    (w.readBack.length = w.diskSize → w.readBack ≠ [] →
      (download_video_stream w).fileBytes = some w.readBack ∧
      (download_video_stream w).fileName = some (w.title ++ ".mp4".toList) ∧
      (download_video_stream w).mimeType = some "video/mp4".toList ∧
      (download_video_stream w).readErrorShown = false ∧
      ((download_video_stream w).sizeWarning = true ↔
        0 < w.totalSize ∧ w.diskSize ≠ w.totalSize)) := by
  constructor
  · intro hmm
    simp [download_video_stream, hs, hfs, hio, hex, hmm]
  · intro hlen hne
    simp [download_video_stream, hs, hfs, hio, hex, hlen, hne]

/-- Witness for `video_corruption_fatal_size_mismatch_warns`: a world whose
read-back has length 2 while the disk size is 3 (first conjunct), evaluated
to the all-`None` triple with the error shown. -/
theorem video_corruption_witness :
    (download_video_stream ⟨true, false, 3, false, true, 3, [7, 7], []⟩).fileBytes = none ∧
    (download_video_stream ⟨true, false, 3, false, true, 3, [7, 7], []⟩).readErrorShown = true := by
  have h := (video_corruption_fatal_size_mismatch_warns
    ⟨true, false, 3, false, true, 3, [7, 7], []⟩ rfl rfl rfl rfl).1 (by decide)
  exact ⟨h.1, h.2.2.2⟩

/-- C1 counterexample: declared total `1`, on-disk size `0`, read-back empty.
The declared-total/on-disk mismatch alone holds (the warning is shown, the
read-back matches the on-disk size, no read error is shown), yet the
function returns the all-`None` triple instead of delivering the artifact,
refuting "the artifact is still delivered". -/
theorem video_warning_counterexample :
    (download_video_stream ⟨true, false, 1, false, true, 0, [], []⟩).sizeWarning = true ∧
    (download_video_stream ⟨true, false, 1, false, true, 0, [], []⟩).readErrorShown = false ∧
    (download_video_stream ⟨true, false, 1, false, true, 0, [], []⟩).fileBytes = none ∧
    (download_video_stream ⟨true, false, 1, false, true, 0, [], []⟩).fileName = none := by
  decide

/-- C5 (corrected): `download_video_stream` removes its temporary file on
every exit path on which the `filesize` query of line 58 does not raise
(every exit of the `try` is covered by its `finally` block), and
`download_audio_stream` leaves no temporary behind on every exit path on
which neither the `filesize` query of line 146 nor the download call of
line 164 raises; but those statements sit after the temporary file's
creation and outside any `try`, so an exception from any of them
propagates with the temporary download file left on disk. -/
theorem temp_cleanup_on_exit_paths :
    (∀ w : VideoWorld, w.filesizeRaises = false →
      (download_video_stream w).tempFileRemains = false) ∧
    (∀ w : AudioWorld, w.filesizeRaises = false → w.downloadRaises = false →
      (download_audio_stream w).audioTempRemains = false ∧
      (download_audio_stream w).mp3TempRemains = false) := by
  constructor
  · intro w hfs
    simp only [download_video_stream, hfs]
    split <;> [rfl; skip]
    simp only [Bool.false_eq_true, if_false]
    split <;> [rfl; skip]
    split <;> [rfl; skip]
    split <;> [rfl; skip]
    split <;> rfl
  · intro w hfs hdl
    simp only [download_audio_stream, hfs, hdl]
    split <;> [exact ⟨rfl, rfl⟩; skip]
    simp only [Bool.false_eq_true, if_false]
    split <;> exact ⟨rfl, rfl⟩

/-- Witness for `temp_cleanup_on_exit_paths` at a concrete video world and a
concrete audio world on which the unprotected statements do not raise. -/
theorem temp_cleanup_witness :
    (download_video_stream ⟨true, false, 2, true, true, 0, [], []⟩).tempFileRemains = false ∧
    (download_audio_stream ⟨true, false, false, true, [], []⟩).audioTempRemains = false := by
  exact ⟨temp_cleanup_on_exit_paths.1 ⟨true, false, 2, true, true, 0, [], []⟩ rfl,
    (temp_cleanup_on_exit_paths.2 ⟨true, false, false, true, [], []⟩ rfl rfl).1⟩

/-- C5 counterexample: a video transfer whose `video_stream.filesize` access
raises, and an audio transfer whose `audio_stream.download` call raises.
In both cases the exception propagates (`raised` / `.error`) and the
temporary download file remains on disk, refuting "on every exit path ...
the temporary download file is removed before the function returns". -/
theorem temp_cleanup_counterexample :
    (download_video_stream ⟨true, true, 0, false, true, 0, [], []⟩).tempFileRemains = true ∧
    (download_video_stream ⟨true, true, 0, false, true, 0, [], []⟩).raised = true ∧
    (download_audio_stream ⟨true, false, true, false, [], []⟩).audioTempRemains = true ∧
    (download_audio_stream ⟨true, false, true, false, [], []⟩).outcome = .error () := by
  exact ⟨rfl, rfl, rfl, rfl⟩

/-- C6: when the download stage completes (the filesize query and the
download call do not raise, so the transcode stage is reached) and the MP3
conversion stage raises, `download_audio_stream` shows the conversion
error, returns the all-`None` triple, and both intermediate files (the
downloaded source audio and the MP3 output path) are removed before
returning. -/
theorem transcode_failure_cleanup (w : AudioWorld) (h1 : w.streamAvail = true)
    (h2 : w.filesizeRaises = false) (h3 : w.downloadRaises = false)
    (h4 : w.transcodeRaises = true) :
    (download_audio_stream w).outcome = .ok (none, none, none) ∧
    (download_audio_stream w).audioTempRemains = false ∧
    (download_audio_stream w).mp3TempRemains = false ∧
    (download_audio_stream w).conversionErrorShown = true := by
  simp [download_audio_stream, h1, h2, h3, h4]

/-- Witness for `transcode_failure_cleanup` at a concrete world. -/
theorem transcode_failure_cleanup_witness :
    (download_audio_stream ⟨true, false, false, true, [9], "t".toList⟩).outcome =
      .ok (none, none, none) ∧
    (download_audio_stream ⟨true, false, false, true, [9], "t".toList⟩).audioTempRemains =
      false := by
  have h := transcode_failure_cleanup ⟨true, false, false, true, [9], "t".toList⟩ rfl rfl rfl rfl
  exact ⟨h.1, h.2.1⟩

/-- C7: for a resource whose caption set has no track with language code
`en`, `download_caption_text` returns the all-`None` triple without raising
and without creating any file, the Streamlit layer shows the "No English
captions available" notice instead of delivering, and func.py's text branch
likewise warns and writes no file. -/
theorem captions_absent_notice (w : CaptionWorld)
    (h : ∀ p ∈ w.captions, p.1 ≠ "en".toList) :
    download_caption_text w = ⟨none, none, none, false⟩ ∧
    (app_text_request w).delivered = false ∧
    (app_text_request w).noCaptionsWarning = true ∧
    (func_download_video_text w.captions).warned = true ∧
    (func_download_video_text w.captions).wroteFile = false := by
  have hfind : get_by_language_code w.captions "en".toList = none := by
    unfold get_by_language_code
    rw [List.find?_eq_none.mpr]
    · rfl
    · intro p hp
      simpa using h p hp
  have h1 : download_caption_text w = ⟨none, none, none, false⟩ := by
    unfold download_caption_text
    rw [hfind]
  have h2 : func_download_video_text w.captions = ⟨true, false⟩ := by
    unfold func_download_video_text
    rw [hfind]
  refine ⟨h1, ?_, ?_, by rw [h2], by rw [h2]⟩ <;>
    simp [app_text_request, h1]

/-- Witness for `captions_absent_notice`: captions in French only. -/
theorem captions_absent_notice_witness :
    download_caption_text ⟨[("fr".toList, "bonjour".toList)], "t".toList⟩ =
      ⟨none, none, none, false⟩ ∧
    (app_text_request ⟨[("fr".toList, "bonjour".toList)], "t".toList⟩).noCaptionsWarning = true := by
  have h := captions_absent_notice ⟨[("fr".toList, "bonjour".toList)], "t".toList⟩ (by decide)
  exact ⟨h.1, h.2.2.1⟩

/-- C9: each of the three download operations returns either a fully
populated triple or the all-`None` triple, never a partially populated one
(for audio, on the runs that return at all rather than raising). -/
theorem results_all_or_none :
    (∀ w : VideoWorld, allOrNone (download_video_stream w).fileBytes
      (download_video_stream w).fileName (download_video_stream w).mimeType) ∧
    (∀ w : AudioWorld, outcomeAllOrNone (download_audio_stream w).outcome) ∧
    (∀ w : CaptionWorld, allOrNone (download_caption_text w).fileBytes
      (download_caption_text w).fileName (download_caption_text w).mimeType) := by
  refine ⟨?_, ?_, ?_⟩
  · intro w
    simp only [download_video_stream]
    split
    · exact Or.inr ⟨rfl, rfl, rfl⟩
    split
    · exact Or.inr ⟨rfl, rfl, rfl⟩
    split
    · exact Or.inr ⟨rfl, rfl, rfl⟩
    split
    · exact Or.inr ⟨rfl, rfl, rfl⟩
    split
    · exact Or.inr ⟨rfl, rfl, rfl⟩
    split
    · exact Or.inr ⟨rfl, rfl, rfl⟩
    · exact Or.inl ⟨by simp, by simp, by simp⟩
  · intro w
    simp only [download_audio_stream]
    split
    · exact Or.inr ⟨rfl, rfl, rfl⟩
    split
    · exact trivial
    split
    · exact trivial
    split
    · exact Or.inr ⟨rfl, rfl, rfl⟩
    · exact Or.inl ⟨by simp, by simp, by simp⟩
  · intro w
    unfold download_caption_text
    cases get_by_language_code w.captions "en".toList with
    | none => exact Or.inr ⟨rfl, rfl, rfl⟩
    | some text => exact Or.inl ⟨by simp, by simp, by simp⟩

/-! ### List toolkit for the URL proofs -/

theorem takeWhile_eq_self_of_all {α} {p : α → Bool} :
    ∀ {l : List α}, (∀ c ∈ l, p c = true) → l.takeWhile p = l
  | [], _ => rfl
  | c :: t, h => by
    have hc := h c (List.mem_cons_self c t)
    have ih := takeWhile_eq_self_of_all (fun d hd => h d (List.mem_cons_of_mem c hd))
    simp [List.takeWhile_cons, hc, ih]

theorem dropWhile_eq_nil_of_all {α} {p : α → Bool} :
    ∀ {l : List α}, (∀ c ∈ l, p c = true) → l.dropWhile p = []
  | [], _ => rfl
  | c :: t, h => by
    have hc := h c (List.mem_cons_self c t)
    have ih := dropWhile_eq_nil_of_all (fun d hd => h d (List.mem_cons_of_mem c hd))
    simp [List.dropWhile_cons, hc, ih]

theorem dropWhile_eq_self_of_allF {α} {p : α → Bool} {l : List α}
    (h : ∀ c ∈ l, p c = false) : l.dropWhile p = l := by
  cases l with
  | nil => rfl
  | cons c t => simp [List.dropWhile_cons, h c (List.mem_cons_self c t)]

theorem takeWhile_append_of_all {α} {p : α → Bool} :
    ∀ {xs : List α}, (∀ c ∈ xs, p c = true) → ∀ ys,
      (xs ++ ys).takeWhile p = xs ++ ys.takeWhile p
  | [], _, ys => rfl
  | c :: t, h, ys => by
    have hc := h c (List.mem_cons_self c t)
    have ih := takeWhile_append_of_all (fun d hd => h d (List.mem_cons_of_mem c hd)) ys
    simp [List.takeWhile_cons, hc, ih]

theorem dropWhile_append_of_all {α} {p : α → Bool} :
    ∀ {xs : List α}, (∀ c ∈ xs, p c = true) → ∀ ys,
      (xs ++ ys).dropWhile p = ys.dropWhile p
  | [], _, ys => rfl
  | c :: t, h, ys => by
    have hc := h c (List.mem_cons_self c t)
    have ih := dropWhile_append_of_all (fun d hd => h d (List.mem_cons_of_mem c hd)) ys
    simp [List.dropWhile_cons, hc, ih]

theorem takeWhile_append_stop {α} {p : α → Bool} {xs : List α}
    (h : ∀ c ∈ xs, p c = true) {c : α} (hc : p c = false) (ys : List α) :
    (xs ++ c :: ys).takeWhile p = xs := by
  rw [takeWhile_append_of_all h, List.takeWhile_cons, hc]
  simp

theorem dropWhile_append_stop {α} {p : α → Bool} {xs : List α}
    (h : ∀ c ∈ xs, p c = true) {c : α} (hc : p c = false) (ys : List α) :
    (xs ++ c :: ys).dropWhile p = c :: ys := by
  rw [dropWhile_append_of_all h, List.dropWhile_cons, hc]
  simp

theorem forall_mem_append_intro {α} {P : α → Prop} {xs ys : List α}
    (hx : ∀ c ∈ xs, P c) (hy : ∀ c ∈ ys, P c) : ∀ c ∈ xs ++ ys, P c := by
  intro c hc
  rcases List.mem_append.mp hc with h | h
  · exact hx c h
  · exact hy c h

theorem forall_mem_cons_intro {α} {P : α → Prop} {x : α} {ys : List α}
    (hx : P x) (hy : ∀ c ∈ ys, P c) : ∀ c ∈ x :: ys, P c :=
  List.forall_mem_cons.mpr ⟨hx, hy⟩

theorem splitOnChar_eq_single {sep : Char} :
    ∀ {l : List Char}, (∀ c ∈ l, (c == sep) = false) → splitOnChar sep l = [l]
  | [], _ => rfl
  | c :: t, h => by
    have hc := h c (List.mem_cons_self c t)
    have ih := splitOnChar_eq_single (fun d hd => h d (List.mem_cons_of_mem c hd))
    simp [splitOnChar, hc, ih]

theorem splitOnChar_append {sep : Char} :
    ∀ {xs : List Char}, (∀ c ∈ xs, (c == sep) = false) → ∀ ys,
      splitOnChar sep (xs ++ sep :: ys) = xs :: splitOnChar sep ys
  | [], _, ys => by simp [splitOnChar]
  | x :: t, h, ys => by
    have hx := h x (List.mem_cons_self x t)
    have ih := splitOnChar_append (fun d hd => h d (List.mem_cons_of_mem x hd)) ys
    simp [splitOnChar, hx, ih]

/-! ### Facts about safe identifier characters -/

theorem safe_ne_of_excluded {c d : Char} (h : safeIdChar c = true)
    (hd : safeIdChar d = false) : c ≠ d := fun he => by
  rw [he] at h
  rw [h] at hd
  exact Bool.noConfusion hd

theorem safe_not_strippable {c : Char} (h : safeIdChar c = true) :
    isStrippable c = false := by
  unfold safeIdChar at h
  have H := of_decide_eq_true h
  unfold isStrippable
  exact decide_eq_false (by omega)

theorem safe_keep {c : Char} (h : safeIdChar c = true) : keepUrlChar c = true := by
  have h1 : (c == '\t') = false := beq_eq_false_iff_ne.mpr (safe_ne_of_excluded h (by decide))
  have h2 : (c == '\r') = false := beq_eq_false_iff_ne.mpr (safe_ne_of_excluded h (by decide))
  have h3 : (c == '\n') = false := beq_eq_false_iff_ne.mpr (safe_ne_of_excluded h (by decide))
  simp [keepUrlChar, isUnsafeUrlChar, h1, h2, h3]

theorem safe_bne_hash {c : Char} (h : safeIdChar c = true) : (c != '#') = true :=
  bne_iff_ne.mpr (safe_ne_of_excluded h (by decide))

theorem safe_bne_qmark {c : Char} (h : safeIdChar c = true) : (c != '?') = true :=
  bne_iff_ne.mpr (safe_ne_of_excluded h (by decide))

theorem safe_beq_amp_false {c : Char} (h : safeIdChar c = true) : (c == '&') = false :=
  beq_eq_false_iff_ne.mpr (safe_ne_of_excluded h (by decide))

theorem safe_beq_plus_false {c : Char} (h : safeIdChar c = true) : (c == '+') = false :=
  beq_eq_false_iff_ne.mpr (safe_ne_of_excluded h (by decide))

theorem safe_beq_slash_false {c : Char} (h : safeIdChar c = true) : (c == '/') = false :=
  beq_eq_false_iff_ne.mpr (safe_ne_of_excluded h (by decide))

theorem safe_ne_pct {c : Char} (h : safeIdChar c = true) : c ≠ '%' :=
  safe_ne_of_excluded h (by decide)

theorem safe_ne_semi {c : Char} (h : safeIdChar c = true) : c ≠ ';' :=
  safe_ne_of_excluded h (by decide)

theorem safe_pct_not_mem {l : List Char} (h : ∀ c ∈ l, safeIdChar c = true) :
    '%' ∉ l := fun hmem => (safe_ne_pct (h '%' hmem)) rfl

theorem safe_semi_not_mem {l : List Char} (h : ∀ c ∈ l, safeIdChar c = true) :
    ';' ∉ l := fun hmem => (safe_ne_semi (h ';' hmem)) rfl

theorem pySanitize_eq_self {l : List Char} (h1 : ∀ c ∈ l, isStrippable c = false)
    (h2 : ∀ c ∈ l, keepUrlChar c = true) : pySanitize l = l := by
  unfold pySanitize
  rw [dropWhile_eq_self_of_allF h1, List.filter_eq_self.mpr h2]

theorem plusToSpace_eq_self :
    ∀ {l : List Char}, (∀ c ∈ l, (c == '+') = false) → plusToSpace l = l
  | [], _ => rfl
  | c :: t, h => by
    have hc := h c (List.mem_cons_self c t)
    have ih := plusToSpace_eq_self (fun d hd => h d (List.mem_cons_of_mem c hd))
    simp only [plusToSpace, List.map_cons, hc, Bool.false_eq_true, if_false] at *
    rw [ih]

theorem pyUnquotePlus_eq_self {l : List Char} (hplus : ∀ c ∈ l, (c == '+') = false)
    (hpct : '%' ∉ l) : pyUnquotePlus l = l := by
  unfold pyUnquotePlus pyUnquote
  rw [plusToSpace_eq_self hplus, if_neg hpct]

/-! ### Evaluating the URL pipeline on the recognized families -/

theorem contains_ytube_canon (rest : List Char) :
    containsSub (canonBase ++ rest) ytubeStr = true := rfl

theorem contains_ytbe_short (rest : List Char) :
    containsSub (shortBase ++ rest) ytbeStr = true := rfl

theorem scheme_canonBase (rest : List Char) :
    pySplitScheme (canonBase ++ rest) =
      ("https".toList, "//www.youtube.com/watch?v=".toList ++ rest) := rfl

theorem scheme_shortBase (rest : List Char) :
    pySplitScheme (shortBase ++ rest) =
      ("https".toList, "//youtu.be/".toList ++ rest) := rfl

theorem noscheme_canonBase (rest : List Char) :
    pyUrlparseNoScheme "https".toList ("//www.youtube.com/watch?v=".toList ++ rest) =
      pyUrlparseRest "https".toList "www.youtube.com".toList ("/watch?v=".toList ++ rest) := rfl

theorem noscheme_shortBase (rest : List Char) :
    pyUrlparseNoScheme "https".toList ("//youtu.be/".toList ++ rest) =
      pyUrlparseRest "https".toList "youtu.be".toList ('/' :: rest) := rfl

theorem watch_path_takeWhile (q : List Char) :
    ("/watch?v=".toList ++ q).takeWhile (· != '?') = "/watch".toList := rfl

theorem watch_query_dropWhile (q : List Char) :
    (("/watch?v=".toList ++ q).dropWhile (· != '?')).drop 1 = 'v' :: '=' :: q := rfl

theorem rest_canon (q : List Char)
    (hq : ∀ c ∈ q, ((c != '#') = true) ∧ ((c != '?') = true)) :
    pyUrlparseRest "https".toList "www.youtube.com".toList ("/watch?v=".toList ++ q) =
      some ⟨"www.youtube.com".toList, "/watch".toList, 'v' :: '=' :: q⟩ := by
  have hpre : ("/watch?v=".toList ++ q).takeWhile (· != '#') = "/watch?v=".toList ++ q := by
    rw [takeWhile_append_of_all (by decide),
      takeWhile_eq_self_of_all (fun c hc => (hq c hc).1)]
  simp only [pyUrlparseRest]
  rw [if_neg (by decide), hpre, watch_path_takeWhile, watch_query_dropWhile, if_neg (by decide)]

theorem rest_canon_frag (q frag : List Char)
    (hq : ∀ c ∈ q, ((c != '#') = true) ∧ ((c != '?') = true)) :
    pyUrlparseRest "https".toList "www.youtube.com".toList
      ("/watch?v=".toList ++ (q ++ '#' :: frag)) =
      some ⟨"www.youtube.com".toList, "/watch".toList, 'v' :: '=' :: q⟩ := by
  have hpre : ("/watch?v=".toList ++ (q ++ '#' :: frag)).takeWhile (· != '#') =
      "/watch?v=".toList ++ q := by
    rw [takeWhile_append_of_all (by decide),
      takeWhile_append_stop (fun c hc => (hq c hc).1) (by decide)]
  simp only [pyUrlparseRest]
  rw [if_neg (by decide), hpre, watch_path_takeWhile, watch_query_dropWhile, if_neg (by decide)]

theorem rest_short (q : List Char)
    (hq : ∀ c ∈ q, ((c != '#') = true) ∧ ((c != '?') = true)) (hsemi : ';' ∉ q) :
    pyUrlparseRest "https".toList "youtu.be".toList ('/' :: q) =
      some ⟨"youtu.be".toList, '/' :: q, []⟩ := by
  have hpre : ('/' :: q).takeWhile (· != '#') = '/' :: q :=
    takeWhile_eq_self_of_all
      (forall_mem_cons_intro (by decide) (fun c hc => (hq c hc).1))
  have hpath : ('/' :: q).takeWhile (· != '?') = '/' :: q :=
    takeWhile_eq_self_of_all
      (forall_mem_cons_intro (by decide) (fun c hc => (hq c hc).2))
  have hquery : ('/' :: q).dropWhile (· != '?') = [] :=
    dropWhile_eq_nil_of_all
      (forall_mem_cons_intro (by decide) (fun c hc => (hq c hc).2))
  have hnosemi : ¬("https".toList ∈ usesParamsSchemes ∧ ';' ∈ '/' :: q) := by
    rintro ⟨-, hmem⟩
    rcases List.mem_cons.mp hmem with h | h
    · exact absurd h (by decide)
    · exact hsemi h
  simp only [pyUrlparseRest]
  rw [if_neg (by decide), hpre, hpath, hquery, if_neg hnosemi]
  rfl

theorem rest_short_junk (id t frag : List Char)
    (hid : ∀ c ∈ id, safeIdChar c = true) (ht : ∀ c ∈ t, safeIdChar c = true) :
    pyUrlparseRest "https".toList "youtu.be".toList
      ('/' :: (id ++ ('?' :: ("list=".toList ++ (t ++ ('#' :: frag)))))) =
      some ⟨"youtu.be".toList, '/' :: id, "list=".toList ++ t⟩ := by
  have hsh : ('/' :: (id ++ ('?' :: ("list=".toList ++ (t ++ ('#' :: frag)))))) =
      ('/' :: (id ++ ('?' :: ("list=".toList ++ t)))) ++ '#' :: frag := by
    simp [List.cons_append, List.append_assoc]
  have hhash : ∀ c ∈ ('/' :: (id ++ ('?' :: ("list=".toList ++ t)))), (c != '#') = true :=
    forall_mem_cons_intro (by decide)
      (forall_mem_append_intro (fun c hc => safe_bne_hash (hid c hc))
        (forall_mem_cons_intro (by decide)
          (forall_mem_append_intro (by decide) (fun c hc => safe_bne_hash (ht c hc)))))
  have hpre : (('/' :: (id ++ ('?' :: ("list=".toList ++ t)))) ++ '#' :: frag).takeWhile
      (· != '#') = '/' :: (id ++ ('?' :: ("list=".toList ++ t))) :=
    takeWhile_append_stop hhash (by decide) frag
  have hqm : ∀ c ∈ id, (c != '?') = true := fun c hc => safe_bne_qmark (hid c hc)
  have hpath : ('/' :: (id ++ ('?' :: ("list=".toList ++ t)))).takeWhile (· != '?') =
      '/' :: id := by
    rw [List.takeWhile_cons, if_pos (by decide), takeWhile_append_stop hqm (by decide)]
  have hquery : (('/' :: (id ++ ('?' :: ("list=".toList ++ t)))).dropWhile (· != '?')).drop 1 =
      "list=".toList ++ t := by
    rw [List.dropWhile_cons, if_pos (by decide), dropWhile_append_stop hqm (by decide)]
    rfl
  have hnosemi : ¬("https".toList ∈ usesParamsSchemes ∧ ';' ∈ '/' :: id) := by
    rintro ⟨-, hmem⟩
    rcases List.mem_cons.mp hmem with h | h
    · exact absurd h (by decide)
    · exact safe_semi_not_mem hid h
  rw [hsh]
  simp only [pyUrlparseRest]
  rw [if_neg (by decide), hpre, hpath, hquery, if_neg hnosemi]

theorem pairParse_v (id : List Char) (hne : id ≠ [])
    (hid : ∀ c ∈ id, safeIdChar c = true) :
    pairParse ('v' :: '=' :: id) = some (['v'], id) := by
  have hval : (('v' :: '=' :: id).dropWhile (· != '=')).drop 1 = id := rfl
  have hname : ('v' :: '=' :: id).takeWhile (· != '=') = ['v'] := rfl
  simp only [pairParse]
  rw [if_neg (by simp), if_pos (by simp), hval, if_neg hne, hname]
  rw [pyUnquotePlus_eq_self (fun c hc => safe_beq_plus_false (hid c hc)) (safe_pct_not_mem hid)]
  rw [pyUnquotePlus_eq_self (by decide) (by decide)]

theorem firstV_v_single (id : List Char) (hne : id ≠ [])
    (hid : ∀ c ∈ id, safeIdChar c = true) :
    firstVParam ('v' :: '=' :: id) = some id := by
  have hnoamp : ∀ c ∈ ('v' :: '=' :: id), (c == '&') = false :=
    forall_mem_cons_intro (by decide) (forall_mem_cons_intro (by decide)
      (fun c hc => safe_beq_amp_false (hid c hc)))
  unfold firstVParam qsPairs
  rw [splitOnChar_eq_single hnoamp]
  simp [pairParse_v id hne hid, List.find?]

theorem firstV_v_amp (id qs : List Char) (hne : id ≠ [])
    (hid : ∀ c ∈ id, safeIdChar c = true) :
    firstVParam ('v' :: '=' :: (id ++ '&' :: qs)) = some id := by
  have hnoamp : ∀ c ∈ ('v' :: '=' :: id), (c == '&') = false :=
    forall_mem_cons_intro (by decide) (forall_mem_cons_intro (by decide)
      (fun c hc => safe_beq_amp_false (hid c hc)))
  have hshape : ('v' :: '=' :: (id ++ '&' :: qs)) = ('v' :: '=' :: id) ++ '&' :: qs := by
    simp
  unfold firstVParam qsPairs
  rw [hshape, splitOnChar_append hnoamp]
  simp [pairParse_v id hne hid, List.find?]

theorem dropSlash_cons_safe (q : List Char) (hq : ∀ c ∈ q, safeIdChar c = true) :
    ('/' :: q).dropWhile (· == '/') = q := by
  rw [List.dropWhile_cons, if_pos (by decide)]
  cases q with
  | nil => rfl
  | cons c tq =>
    have hc : (c == '/') = false := safe_beq_slash_false (hq c (List.mem_cons_self c tq))
    simp [List.dropWhile_cons, hc]

/-! ### Evaluation lemmas for `clean_url`'s branch structure -/

theorem clean_url_of_parse_ytbe {u : List Char} {parts : UrlParts}
    (hg : (containsSub u ytubeStr || containsSub u ytbeStr) = true)
    (hp : pyUrlparse u = some parts) (hn : parts.netloc = ytbeStr) :
    clean_url u = some (canonBase ++ parts.path.dropWhile (· == '/')) := by
  unfold clean_url
  rw [if_pos hg, hp]
  show (if parts.netloc = ytbeStr then some (canonBase ++ parts.path.dropWhile (· == '/'))
        else
          match firstVParam parts.query with
          | some v => some (canonBase ++ v)
          | none => some u) = some (canonBase ++ parts.path.dropWhile (· == '/'))
  rw [if_pos hn]

theorem clean_url_of_parse_v {u : List Char} {parts : UrlParts} {v : List Char}
    (hg : (containsSub u ytubeStr || containsSub u ytbeStr) = true)
    (hp : pyUrlparse u = some parts) (hn : parts.netloc ≠ ytbeStr)
    (hv : firstVParam parts.query = some v) :
    clean_url u = some (canonBase ++ v) := by
  unfold clean_url
  rw [if_pos hg, hp]
  show (if parts.netloc = ytbeStr then some (canonBase ++ parts.path.dropWhile (· == '/'))
        else
          match firstVParam parts.query with
          | some v => some (canonBase ++ v)
          | none => some u) = some (canonBase ++ v)
  rw [if_neg hn, hv]

theorem clean_url_of_parse_nov {u : List Char} {parts : UrlParts}
    (hp : pyUrlparse u = some parts) (hn : parts.netloc ≠ ytbeStr)
    (hv : firstVParam parts.query = none) :
    clean_url u = some u := by
  unfold clean_url
  by_cases hg : (containsSub u ytubeStr || containsSub u ytbeStr) = true
  · rw [if_pos hg, hp]
    show (if parts.netloc = ytbeStr then some (canonBase ++ parts.path.dropWhile (· == '/'))
          else
            match firstVParam parts.query with
            | some v => some (canonBase ++ v)
            | none => some u) = some u
    rw [if_neg hn, hv]
  · rw [if_neg hg]

theorem clean_url_no_contains {u : List Char}
    (hg : (containsSub u ytubeStr || containsSub u ytbeStr) = false) :
    clean_url u = some u := by
  unfold clean_url
  rw [if_neg (by simp [hg])]

/-! ### `pyUrlparse` on the recognized families -/

theorem parse_canon_safe (id : List Char) (hid : ∀ c ∈ id, safeIdChar c = true) :
    pyUrlparse (canonBase ++ id) =
      some ⟨"www.youtube.com".toList, "/watch".toList, 'v' :: '=' :: id⟩ := by
  have hsan : pySanitize (canonBase ++ id) = canonBase ++ id :=
    pySanitize_eq_self
      (forall_mem_append_intro (by decide) (fun c hc => safe_not_strippable (hid c hc)))
      (forall_mem_append_intro (by decide) (fun c hc => safe_keep (hid c hc)))
  simp only [pyUrlparse]
  rw [hsan, scheme_canonBase]
  exact (noscheme_canonBase id).trans
    (rest_canon id (fun c hc => ⟨safe_bne_hash (hid c hc), safe_bne_qmark (hid c hc)⟩))

theorem parse_short_safe (id : List Char) (hid : ∀ c ∈ id, safeIdChar c = true) :
    pyUrlparse (shortBase ++ id) = some ⟨"youtu.be".toList, '/' :: id, []⟩ := by
  have hsan : pySanitize (shortBase ++ id) = shortBase ++ id :=
    pySanitize_eq_self
      (forall_mem_append_intro (by decide) (fun c hc => safe_not_strippable (hid c hc)))
      (forall_mem_append_intro (by decide) (fun c hc => safe_keep (hid c hc)))
  simp only [pyUrlparse]
  rw [hsan, scheme_shortBase]
  exact (noscheme_shortBase id).trans
    (rest_short id (fun c hc => ⟨safe_bne_hash (hid c hc), safe_bne_qmark (hid c hc)⟩)
      (safe_semi_not_mem hid))

theorem parse_canon_junk (id t frag : List Char)
    (hid : ∀ c ∈ id, safeIdChar c = true) (ht : ∀ c ∈ t, safeIdChar c = true)
    (hfrag : ∀ c ∈ frag, safeIdChar c = true) :
    pyUrlparse (canonBase ++ (id ++ ("&list=".toList ++ (t ++ ("#".toList ++ frag))))) =
      some ⟨"www.youtube.com".toList, "/watch".toList,
        'v' :: '=' :: (id ++ '&' :: ("list=".toList ++ t))⟩ := by
  have hstrip : ∀ c ∈ canonBase ++ (id ++ ("&list=".toList ++ (t ++ ("#".toList ++ frag)))),
      isStrippable c = false :=
    forall_mem_append_intro (by decide)
      (forall_mem_append_intro (fun c hc => safe_not_strippable (hid c hc))
        (forall_mem_append_intro (by decide)
          (forall_mem_append_intro (fun c hc => safe_not_strippable (ht c hc))
            (forall_mem_append_intro (by decide)
              (fun c hc => safe_not_strippable (hfrag c hc))))))
  have hkeep : ∀ c ∈ canonBase ++ (id ++ ("&list=".toList ++ (t ++ ("#".toList ++ frag)))),
      keepUrlChar c = true :=
    forall_mem_append_intro (by decide)
      (forall_mem_append_intro (fun c hc => safe_keep (hid c hc))
        (forall_mem_append_intro (by decide)
          (forall_mem_append_intro (fun c hc => safe_keep (ht c hc))
            (forall_mem_append_intro (by decide) (fun c hc => safe_keep (hfrag c hc))))))
  have hsan := pySanitize_eq_self hstrip hkeep
  have hre : id ++ ("&list=".toList ++ (t ++ ("#".toList ++ frag))) =
      (id ++ '&' :: ("list=".toList ++ t)) ++ '#' :: frag := by
    have e1 : "&list=".toList = '&' :: "list=".toList := rfl
    have e2 : "#".toList ++ frag = '#' :: frag := rfl
    rw [e1, e2]
    simp [List.cons_append, List.append_assoc]
  simp only [pyUrlparse]
  rw [hsan, scheme_canonBase]
  refine (noscheme_canonBase _).trans ?_
  rw [hre]
  exact rest_canon_frag (id ++ '&' :: ("list=".toList ++ t)) frag
    (forall_mem_append_intro
      (fun c hc => ⟨safe_bne_hash (hid c hc), safe_bne_qmark (hid c hc)⟩)
      (forall_mem_cons_intro (by decide)
        (forall_mem_append_intro (by decide)
          (fun c hc => ⟨safe_bne_hash (ht c hc), safe_bne_qmark (ht c hc)⟩))))

theorem parse_short_junk (id t frag : List Char)
    (hid : ∀ c ∈ id, safeIdChar c = true) (ht : ∀ c ∈ t, safeIdChar c = true)
    (hfrag : ∀ c ∈ frag, safeIdChar c = true) :
    pyUrlparse (shortBase ++ (id ++ ("?list=".toList ++ (t ++ ("#".toList ++ frag))))) =
      some ⟨"youtu.be".toList, '/' :: id, "list=".toList ++ t⟩ := by
  have hstrip : ∀ c ∈ shortBase ++ (id ++ ("?list=".toList ++ (t ++ ("#".toList ++ frag)))),
      isStrippable c = false :=
    forall_mem_append_intro (by decide)
      (forall_mem_append_intro (fun c hc => safe_not_strippable (hid c hc))
        (forall_mem_append_intro (by decide)
          (forall_mem_append_intro (fun c hc => safe_not_strippable (ht c hc))
            (forall_mem_append_intro (by decide)
              (fun c hc => safe_not_strippable (hfrag c hc))))))
  have hkeep : ∀ c ∈ shortBase ++ (id ++ ("?list=".toList ++ (t ++ ("#".toList ++ frag)))),
      keepUrlChar c = true :=
    forall_mem_append_intro (by decide)
      (forall_mem_append_intro (fun c hc => safe_keep (hid c hc))
        (forall_mem_append_intro (by decide)
          (forall_mem_append_intro (fun c hc => safe_keep (ht c hc))
            (forall_mem_append_intro (by decide) (fun c hc => safe_keep (hfrag c hc))))))
  have hsan := pySanitize_eq_self hstrip hkeep
  have hre : id ++ ("?list=".toList ++ (t ++ ("#".toList ++ frag))) =
      id ++ ('?' :: ("list=".toList ++ (t ++ ('#' :: frag)))) := by
    have e1 : "?list=".toList = '?' :: "list=".toList := rfl
    have e2 : "#".toList ++ frag = '#' :: frag := rfl
    rw [e1, e2]
    simp [List.cons_append]
  simp only [pyUrlparse]
  rw [hsan, scheme_shortBase]
  refine (noscheme_shortBase _).trans ?_
  rw [hre]
  exact rest_short_junk id t frag hid ht

/-- C3 (corrected): on identifiers made of safe characters (ASCII
alphanumerics, `-`, `_` — the alphabet of real YouTube ids), the shortened
form `https://youtu.be/<id>` and the canonical form
`https://www.youtube.com/watch?v=<id>` both normalize to the canonical form,
and the canonical form is a fixed point of `clean_url` — so on these inputs
normalization is idempotent and the two forms agree.  For arbitrary input
strings the claim fails: an identifier containing a query separator survives
the first normalization inside the path of the shortened form but is
truncated by `parse_qs` on the second pass (see the counterexample). -/
theorem normalize_idempotent_on_safe_ids (id : List Char) (hne : id ≠ [])
    (hid : ∀ c ∈ id, safeIdChar c = true) :
    clean_url (shortBase ++ id) = some (canonBase ++ id) ∧
    clean_url (canonBase ++ id) = some (canonBase ++ id) := by
  constructor
  · have h := clean_url_of_parse_ytbe (u := shortBase ++ id)
      (by rw [contains_ytbe_short, Bool.or_true]) (parse_short_safe id hid) rfl
    refine h.trans ?_
    show some (canonBase ++ ('/' :: id).dropWhile (· == '/')) = some (canonBase ++ id)
    rw [dropSlash_cons_safe id hid]
  · exact clean_url_of_parse_v (by rw [contains_ytube_canon, Bool.true_or])
      (parse_canon_safe id hid) (show "www.youtube.com".toList ≠ ytbeStr by decide)
      (firstV_v_single id hne hid)

/-- Witness for `normalize_idempotent_on_safe_ids` at the identifier
`dQw4w9WgXcQ`. -/
theorem normalize_idempotent_witness :
    clean_url (shortBase ++ "dQw4w9WgXcQ".toList) =
      some (canonBase ++ "dQw4w9WgXcQ".toList) ∧
    clean_url (canonBase ++ "dQw4w9WgXcQ".toList) =
      some (canonBase ++ "dQw4w9WgXcQ".toList) :=
  normalize_idempotent_on_safe_ids "dQw4w9WgXcQ".toList (by decide) (by decide)

/-- C3 counterexample: `clean_url` is not idempotent on the input
`https://youtu.be/a&b`: the first pass embeds the raw path `a&b` into a
query string, and the second pass truncates it at the `&`, so applying
`clean_url` twice differs from applying it once. -/
theorem normalize_not_idempotent_counterexample :
    clean_url "https://youtu.be/a&b".toList =
      some "https://www.youtube.com/watch?v=a&b".toList ∧
    clean_url "https://www.youtube.com/watch?v=a&b".toList =
      some "https://www.youtube.com/watch?v=a".toList ∧
    (clean_url "https://youtu.be/a&b".toList).bind clean_url ≠
      clean_url "https://youtu.be/a&b".toList := by
  refine ⟨by decide, by decide, by decide⟩

/-- C8 (corrected): an input recognized by neither form is returned
unchanged — both when the substring guard fails outright (no `youtube` /
`youtu.be` occurs in the string) and when the guard passes but the parsed
URL has neither the `youtu.be` netloc nor a usable `v` query parameter
(e.g. canonical-form URLs missing `v`, or other domains containing the
substring).  "Does not raise" however fails in general: `urlparse` raises
`ValueError` on an authority with an unmatched bracket, and `clean_url`
does not catch it (see the counterexample). -/
theorem unrecognized_passthrough (u : List Char) :
    ((containsSub u ytubeStr || containsSub u ytbeStr) = false → clean_url u = some u) ∧
    (∀ parts : UrlParts, pyUrlparse u = some parts → parts.netloc ≠ ytbeStr →
      firstVParam parts.query = none → clean_url u = some u) :=
  ⟨fun hg => clean_url_no_contains hg,
   fun _ hp hn hv => clean_url_of_parse_nov hp hn hv⟩

/-- Witness for `unrecognized_passthrough`: an unrelated domain (guard
fails) and a canonical-host URL with no `v` parameter (guard passes, no
match). -/
theorem unrecognized_passthrough_witness :
    clean_url "https://example.com/watch".toList =
      some "https://example.com/watch".toList ∧
    clean_url "https://www.youtube.com/playlist".toList =
      some "https://www.youtube.com/playlist".toList := by
  constructor
  · exact (unrecognized_passthrough "https://example.com/watch".toList).1 (by decide)
  · exact (unrecognized_passthrough "https://www.youtube.com/playlist".toList).2
      ⟨"www.youtube.com".toList, "/playlist".toList, []⟩ (by decide) (by decide) (by decide)

/-- C8 counterexample: `http://youtube.[x` matches neither form, yet
`clean_url` does not return it unchanged — `urlparse` raises
`ValueError: Invalid IPv6 URL` on the unmatched `[` in the authority
(modelled as `none`), and the exception escapes `clean_url`. -/
theorem unrecognized_passthrough_counterexample :
    clean_url "http://youtube.[x".toList = none := by decide

/-- C10: whenever `clean_url` recognizes its input (the substring guard
passes, `urlparse` succeeds, and either the netloc is `youtu.be` or a `v`
query parameter is present), the output is exactly
`https://www.youtube.com/watch?v=` followed by the extracted identifier (the
`/`-stripped path in the shortened form, the first decoded `v` value in the
canonical form); in particular, for the concrete families below, every other
query parameter (`list=...`), the fragment, and the path component of the
original URL are discarded from the result. -/
theorem recognized_canonical_output :
    (∀ (u : List Char) (parts : UrlParts),
      (containsSub u ytubeStr || containsSub u ytbeStr) = true →
      pyUrlparse u = some parts →
      (parts.netloc = ytbeStr →
        clean_url u = some (canonBase ++ parts.path.dropWhile (· == '/'))) ∧
      (parts.netloc ≠ ytbeStr → ∀ v, firstVParam parts.query = some v →
        clean_url u = some (canonBase ++ v))) ∧
    (∀ id t frag : List Char, id ≠ [] → (∀ c ∈ id, safeIdChar c = true) →
      (∀ c ∈ t, safeIdChar c = true) → (∀ c ∈ frag, safeIdChar c = true) →
      clean_url (canonBase ++ (id ++ ("&list=".toList ++ (t ++ ("#".toList ++ frag))))) =
        some (canonBase ++ id) ∧
      clean_url (shortBase ++ (id ++ ("?list=".toList ++ (t ++ ("#".toList ++ frag))))) =
        some (canonBase ++ id)) := by
  constructor
  · intro u parts hg hp
    exact ⟨fun hn => clean_url_of_parse_ytbe hg hp hn,
      fun hn v hv => clean_url_of_parse_v hg hp hn hv⟩
  · intro id t frag hne hid ht hfrag
    constructor
    · exact clean_url_of_parse_v (by rw [contains_ytube_canon, Bool.true_or])
        (parse_canon_junk id t frag hid ht hfrag)
        (show "www.youtube.com".toList ≠ ytbeStr by decide)
        (firstV_v_amp id ("list=".toList ++ t) hne hid)
    · have h := clean_url_of_parse_ytbe
        (u := shortBase ++ (id ++ ("?list=".toList ++ (t ++ ("#".toList ++ frag)))))
        (by rw [contains_ytbe_short, Bool.or_true])
        (parse_short_junk id t frag hid ht hfrag) rfl
      refine h.trans ?_
      show some (canonBase ++ ('/' :: id).dropWhile (· == '/')) = some (canonBase ++ id)
      rw [dropSlash_cons_safe id hid]

/-- Witness for `recognized_canonical_output`: a canonical URL with an extra
`list` parameter and fragment collapses to the bare watch URL, and a
shortened URL is recognized through the general branch. -/
theorem recognized_canonical_output_witness :
    clean_url (canonBase ++ ("abc".toList ++ ("&list=".toList ++
        ("PL9".toList ++ ("#".toList ++ "top".toList))))) =
      some (canonBase ++ "abc".toList) ∧
    clean_url "https://youtu.be/QQ7".toList = some (canonBase ++ "QQ7".toList) := by
  constructor
  · exact (recognized_canonical_output.2 "abc".toList "PL9".toList "top".toList
      (by decide) (by decide) (by decide) (by decide)).1
  · have h := ((recognized_canonical_output.1 "https://youtu.be/QQ7".toList
      ⟨"youtu.be".toList, "/QQ7".toList, []⟩ (by decide) (by decide)).1 (by decide))
    exact h.trans (by decide)
